import Mathlib

/-!
Verification development for the civic-sip-api client core.

The JavaScript source (src/index.js, src/lib/jwt.js) is shallowly embedded:
pure functions become Lean functions, effects (current time, fresh uuid,
the HTTP transport response) become explicit parameters, thrown exceptions
become Except results, and the ECDSA / HMAC / AES primitives supplied by the
external jsrsasign, crypto-js and basicCrypto libraries are modelled
symbolically (a signature records the signing key and message; key-pair
validity is a correspondence pubkeyOf between private and public key hex
strings quantified in the theorems).
-/

namespace Civic

/-- JSON values as JavaScript sees them: an object keeps the insertion order
of its fields, which is exactly what plain JSON.stringify serializes. -/
inductive Json where
  | null : Json
  | bool (b : Bool) : Json
  | num (n : Int) : Json
  | str (s : String) : Json
  | arr (elems : List Json) : Json
  | obj (fields : List (String × Json)) : Json

/-- Quoting of a JSON string (escaping of interior characters elided; the
claims under study never involve characters needing escapes). -/
def quoteStr (s : String) : String := "\"" ++ s ++ "\""

mutual

/-- Model of JavaScript JSON.stringify: fields appear in insertion order. -/
def jsonStringify : Json → String
  | Json.null => "null"
  | Json.bool b => cond b "true" "false"
  | Json.num n => toString n
  | Json.str s => quoteStr s
  | Json.arr xs => "[" ++ jsonStringifyElems xs ++ "]"
  | Json.obj fs => "\x7b" ++ jsonStringifyFields fs ++ "\x7d"

/-- Comma-joined serialization of array elements. -/
def jsonStringifyElems : List Json → String
  | [] => ""
  | [x] => jsonStringify x
  | x :: y :: xs => jsonStringify x ++ "," ++ jsonStringifyElems (y :: xs)

/-- Comma-joined serialization of object fields, in the order given. -/
def jsonStringifyFields : List (String × Json) → String
  | [] => ""
  | [(k, v)] => quoteStr k ++ ":" ++ jsonStringify v
  | (k, v) :: f :: fs =>
      quoteStr k ++ ":" ++ jsonStringify v ++ "," ++ jsonStringifyFields (f :: fs)

end

/-- Lexicographic comparison of character lists by codepoint; spelled out
so it computes inside the kernel. -/
def charsLt : List Char → List Char → Bool
  | [], [] => false
  | [], _ :: _ => true
  | _ :: _, [] => false
  | a :: as, b :: bs =>
      if a.toNat < b.toNat then true
      else if b.toNat < a.toNat then false
      else charsLt as bs

/-- Lexicographic comparison of strings, the default comparator under which
json-stable-stringify sorts object keys. -/
def strLt (a b : String) : Bool := charsLt a.data b.data

/-- Non-strict ordering of object fields by key. -/
def fieldLe (a b : String × Json) : Prop := strLt b.1 a.1 = false

/-- Strict ordering of object fields by key. -/
def fieldLt (a b : String × Json) : Prop := strLt a.1 b.1 = true

instance : DecidableRel fieldLe := fun a b =>
  (inferInstance : Decidable (strLt b.1 a.1 = false))

instance : DecidableRel fieldLt := fun a b =>
  (inferInstance : Decidable (strLt a.1 b.1 = true))

/-- Sorting of an object's fields by key (json-stable-stringify). -/
def sortFields (fs : List (String × Json)) : List (String × Json) :=
  List.insertionSort fieldLe fs

mutual

/-- Recursive key-sorting normalization: serializing the normalized value
with jsonStringify is exactly what json-stable-stringify produces. -/
def normJson : Json → Json
  | Json.null => Json.null
  | Json.bool b => Json.bool b
  | Json.num n => Json.num n
  | Json.str s => Json.str s
  | Json.arr xs => Json.arr (normElems xs)
  | Json.obj fs => Json.obj (sortFields (normFields fs))

/-- Normalization of every element of an array. -/
def normElems : List Json → List Json
  | [] => []
  | x :: xs => normJson x :: normElems xs

/-- Normalization of every field value of an object. -/
def normFields : List (String × Json) → List (String × Json)
  | [] => []
  | (k, v) :: fs => (k, normJson v) :: normFields fs

end

/-- Model of json-stable-stringify (the canonical serializer of jwt.js):
JSON serialization with keys sorted at every object level. -/
def stableStringify (j : Json) : String := jsonStringify (normJson j)

/-- ES256, the only algorithm jwt.js is meant to sign with and accept. -/
def ALGO : String := "ES256"

/-- Symbolic ECDSA signature: records which private key produced it and over
which message, standing in for the jsrsasign P-256 primitive. -/
structure SymSig where
  keyHex : String
  message : String
deriving DecidableEq, Repr

/-- Symbolic ECDSA signing of a message with a private key. -/
def ecdsaSign (prvKeyHex message : String) : SymSig :=
  { keyHex := prvKeyHex, message := message }

/-- Symbolic ECDSA verification: pubkeyOf is the private-to-public key
correspondence of the curve; a P-256 public key verifies a signature exactly
when the header algorithm is ES256, the signature was produced by the
matching private key, and it covers the presented message. -/
def ecdsaVerify (pubkeyOf : String → String) (pubKeyHex alg message : String)
    (sig : SymSig) : Bool :=
  alg == ALGO && pubkeyOf sig.keyHex == pubKeyHex && sig.message == message

/-- Claims set built by createToken (jwt.js line 25). -/
structure JwtContent where
  jti : String
  iat : Int
  exp : Int
  iss : String
  aud : String
  sub : String
  data : Json

/-- JSON form of the claims set, in the exact field order createToken uses. -/
def contentToJson (c : JwtContent) : Json :=
  Json.obj [("jti", Json.str c.jti), ("iat", Json.num c.iat),
            ("exp", Json.num c.exp), ("iss", Json.str c.iss),
            ("aud", Json.str c.aud), ("sub", Json.str c.sub),
            ("data", c.data)]

/-- JSON form of the fixed JWS header of createToken. -/
def headerJson : Json :=
  Json.obj [("alg", Json.str ALGO), ("typ", Json.str "JWT")]

/-- Signed token as jsrsasign represents it once parsed: header fields, the
serialized header and claims strings the signature covers, and the signature. -/
structure Token where
  headerAlg : String
  sHeader : String
  payloadObj : JwtContent
  sContent : String
  sig : SymSig

/-- Embedding of jwt.js createToken. Effects are explicit parameters: now is
timestamp.now() and jti the fresh uuidV4(). The claims string is produced by
plain JSON.stringify, not by the stable serializer. -/
def createToken (now : Int) (jti : String) (issuer audience subject : String)
    (expiresIn : Int) (payload : Json) (prvKeyHex : String) : Token :=
  let untilTs := now + expiresIn
  let content : JwtContent :=
    { jti := jti, iat := now, exp := untilTs, iss := issuer, aud := audience,
      sub := subject, data := payload }
  let sHeader := jsonStringify headerJson
  let sContent := jsonStringify (contentToJson content)
  { headerAlg := ALGO, sHeader := sHeader, payloadObj := content,
    sContent := sContent,
    sig := ecdsaSign prvKeyHex (sHeader ++ "." ++ sContent) }

/-- Verification options (jsrsasign acceptField): only the fields this
code base ever supplies. -/
structure AcceptField where
  gracePeriod : Int
  alg : List String
deriving DecidableEq, Repr

/-- Index-wise array merging as lodash.merge performs it on array values:
each source element overwrites the destination element at the same index and
destination elements beyond the source length survive. -/
def mergeArrays (dst src : List String) : List String :=
  match dst, src with
  | dstRest, [] => dstRest
  | [], srcRest => srcRest
  | _ :: ds, s :: ss => s :: mergeArrays ds ss

/-- Embedding of the option merge in jwt.js verify, line 52:
merge(acceptable || \x7b\x7d, \x7b alg: [ALGO] \x7d) under lodash.merge
semantics. -/
def mergeOptions (acceptable : Option AcceptField) : AcceptField :=
  let dst := acceptable.getD { gracePeriod := 0, alg := [] }
  { gracePeriod := dst.gracePeriod, alg := mergeArrays dst.alg [ALGO] }

/-- Model of jsrsasign JWS.verifyJWT: the header algorithm must be in the
accepted list, iat and exp must frame now up to the grace period, and the
signature must verify against the supplied public key. -/
def verifyJWT (pubkeyOf : String → String) (now : Int) (token : Token)
    (pubKeyHex : String) (accept : AcceptField) : Bool :=
  accept.alg.contains token.headerAlg &&
  decide (token.payloadObj.iat - accept.gracePeriod ≤ now) &&
  decide (now ≤ token.payloadObj.exp + accept.gracePeriod) &&
  ecdsaVerify pubkeyOf pubKeyHex token.headerAlg
    (token.sHeader ++ "." ++ token.sContent) token.sig

/-- Embedding of jwt.js verify: merges the caller options with the forced
algorithm list and runs verifyJWT with the public key point pubhex. -/
def verify (pubkeyOf : String → String) (now : Int) (token : Token)
    (pubhex : String) (acceptable : Option AcceptField) : Bool :=
  verifyJWT pubkeyOf now token pubhex (mergeOptions acceptable)

/-- Embedding of jwt.js decode (JWS.parse): parsing the compact serialization
recovers the token's header and payload objects. -/
def decode (token : Token) : Token := token

/-- Symbolic HMAC-SHA256 keyed digest. -/
def hmacSHA256 (message key : String) : String :=
  "hmac-sha256(" ++ key ++ "," ++ message ++ ")"

/-- Symbolic base64 rendering of a digest. -/
def b64 (digest : String) : String := "b64:" ++ digest

/-- Embedding of jwt.js createCivicExt: stable-stringifies the body and
returns the base64 HMAC-SHA256 digest keyed by the client access secret. -/
def createCivicExt (body : Json) (clientAccessSecret : String) : String :=
  let bodyStr := stableStringify body
  b64 (hmacSHA256 bodyStr clientAccessSecret)

/-- Hosted-service base URL constant of index.js. -/
def SIP_BASE_URL : String := "https://api.civic.com/sip/"

/-- Hosted-service fixed public verification key of index.js. -/
def SIP_HEXPUB : String :=
  "049a45998638cfb3c4b211d72030d9ae8329a242db63bfb0076a54e7647370a8ac5708b57af6065805d5a6be72332620932dbb35e8d318fce18e7c980a0eb26aa1"

/-- Token lifetime constant JWT_EXPIRATION = 3 minutes, in seconds. -/
def JWT_EXPIRATION : Int := 180

/-- Configuration object handed to newClient; every field can be absent
(JavaScript undefined is Option.none). -/
structure SipConfig where
  appId : Option String
  appSecret : Option String
  prvKey : Option String
  env : Option String
  defaultContentType : Option String
  defaultAcceptType : Option String
  api : Option String

/-- JavaScript truthiness of an optional string: undefined and the empty
string are falsy. -/
def truthyOpt : Option String → Bool
  | none => false
  | some s => !s.isEmpty

/-- Client value newClient returns, with every configuration default already
resolved. -/
structure SipClient where
  appId : String
  appSecret : String
  prvKey : String
  env : String
  defaultContentType : String
  defaultAcceptType : String
  base_url : String
  endpoint : String
  pathComponent : String
deriving DecidableEq, Repr

/-- Kernel-computable prefix test on character lists. -/
def leadsWith : List Char → List Char → Bool
  | [], _ => true
  | _ :: _, [] => false
  | p :: ps, c :: cs => if p = c then leadsWith ps cs else false

/-- Leading segment of a URL after the scheme, up to the first slash. -/
def takeHost (cs : List Char) : List Char :=
  List.takeWhile (fun c => c != '/') cs

/-- Model of the endpoint regex of index.js: an http or https scheme plus a
nonempty host, none when the regex does not match (where the source would
throw a TypeError on null). -/
def extractEndpoint (url : String) : Option String :=
  if leadsWith "https://".data url.data then
    let host := takeHost (url.data.drop 8)
    if host.isEmpty then none else some (String.mk ("https://".data ++ host))
  else if leadsWith "http://".data url.data then
    let host := takeHost (url.data.drop 7)
    if host.isEmpty then none else some (String.mk ("http://".data ++ host))
  else none

/-- Embedding of index.js newClient: an undefined config is replaced by the
empty-field default object, the three credentials are demanded truthy in
source order, env defaults to prod, an api override gets a trailing slash,
content and accept types default only when undefined, and the endpoint and
path component are split out of the invoke URL. Thrown errors are the error
branch. -/
def newClient (config0 : Option SipConfig) : Except String SipClient :=
  let config := config0.getD
    { appId := some "", appSecret := some "", prvKey := some "",
      env := some "prod", defaultContentType := some "application/json",
      defaultAcceptType := some "application/json", api := none }
  if !truthyOpt config.appId then
    Except.error "Please supply your application ID."
  else if !truthyOpt config.appSecret then
    Except.error "Please supply your application secret."
  else if !truthyOpt config.prvKey then
    Except.error "Please supply your application private key."
  else
    let env := if !truthyOpt config.env then "prod" else config.env.getD ""
    let base_url :=
      match config.api with
      | some api => if api.endsWith "/" then api else api ++ "/"
      | none => SIP_BASE_URL
    let defaultContentType := config.defaultContentType.getD "application/json"
    let defaultAcceptType := config.defaultAcceptType.getD "application/json"
    let invokeUrl := base_url ++ env
    match extractEndpoint invokeUrl with
    | none => Except.error "TypeError: regex match on invoke URL is null"
    | some endpoint =>
        Except.ok
          { appId := config.appId.getD "", appSecret := config.appSecret.getD "",
            prvKey := config.prvKey.getD "", env := env,
            defaultContentType := defaultContentType,
            defaultAcceptType := defaultAcceptType, base_url := base_url,
            endpoint := endpoint,
            pathComponent := invokeUrl.drop endpoint.length }

/-- Rendering of a symbolic signature inside a compact token string. -/
def sigRepr (sig : SymSig) : String :=
  "sig(" ++ sig.keyHex ++ "," ++ sig.message ++ ")"

/-- Compact serialization of a signed token: the three segments joined by
dots (the base64url transport encoding of each segment is elided, the
serialization stays injective on the claims under study). -/
def Token.compact (t : Token) : String :=
  t.sHeader ++ "." ++ t.sContent ++ "." ++ sigRepr t.sig

/-- Embedding of index.js makeAuthorizationHeader: signs issuer = subject =
appId, audience = the resolved service base URL, data = the method and path,
appends the Civic extension over the request body, and joins everything
under the Civic scheme tag. -/
def makeAuthorizationHeader (client : SipClient) (now : Int) (jti : String)
    (targetPath targetMethod : String) (requestBody : Json) : String :=
  let jwtToken := createToken now jti client.appId client.base_url
    client.appId JWT_EXPIRATION
    (Json.obj [("method", Json.str targetMethod), ("path", Json.str targetPath)])
    client.prvKey
  let extension := createCivicExt requestBody client.appSecret
  "Civic" ++ " " ++ jwtToken.compact ++ "." ++ extension

/-- Modelled from the spec: src/lib/basicCrypto.js is absent from src/. The
spec says the unwrapper decrypts claims.data with a symmetric AES cipher
keyed by the shared secret; encryption is modelled symbolically as wrapping
the plaintext with the key. -/
def basicCryptoEncrypt (plain : Json) (secret : String) : Json :=
  Json.obj [("aes-ciphertext", plain), ("aes-key", Json.str secret)]

/-- Modelled from the spec: symbolic AES decryption, the inverse of
basicCryptoEncrypt when the secret matches. -/
def basicCryptoDecrypt (cipher : Json) (secret : String) : Json :=
  match cipher with
  | Json.obj [("aes-ciphertext", plain), ("aes-key", Json.str k)] =>
      if k = secret then plain else Json.null
  | c => c

/-- Response envelope the hosted service returns. -/
structure Envelope where
  data : Token
  encrypted : Bool

/-- Observable cryptographic events, recorded to state the ordering
invariants of the spec. -/
inductive Event where
  | verifyCall (ok : Bool) : Event
  | decryptCall : Event
  | unwrapCall : Event
deriving DecidableEq, Repr

/-- Embedding of index.js verifyAndDecrypt, paired with the trace of
cryptographic events it performs: verifies the envelope token against the
fixed service key with a 60-second grace period, throws when invalid, and
otherwise returns the data claim, decrypted only when the envelope says it
is encrypted. -/
def verifyAndDecrypt (pubkeyOf : String → String) (now : Int)
    (client : SipClient) (payload : Envelope) :
    Except String Json × List Event :=
  let token := payload.data
  let isValid := verify pubkeyOf now token SIP_HEXPUB
    (some { gracePeriod := 60, alg := [] })
  if !isValid then
    (Except.error "JWT Token containing encrypted data could not be verified",
     [Event.verifyCall false])
  else
    let decodedToken := decode token
    let clearText := decodedToken.payloadObj.data
    if payload.encrypted then
      (Except.ok (basicCryptoDecrypt decodedToken.payloadObj.data client.appSecret),
       [Event.verifyCall true, Event.decryptCall])
    else
      (Except.ok clearText, [Event.verifyCall true])

/-- Data object a caught transport error may carry; both the object and its
message can be absent. -/
structure JsErrorData where
  message : Option String
deriving DecidableEq, Repr

/-- Caught transport-layer error. -/
structure CaughtError where
  data : Option JsErrorData
deriving DecidableEq, Repr

/-- Errors exchangeCode can surface: a constructed Error, or a runtime
TypeError raised while constructing the error message. -/
inductive JsError where
  | error (message : String) : JsError
  | typeError (message : String) : JsError
deriving DecidableEq, Repr

/-- HTTP response of the transport collaborator. -/
structure ScopeResponse where
  status : Int
  data : Envelope

/-- Embedding of index.js exchangeCode, with the transport call made an
explicit argument (response) and the event trace of verifyAndDecrypt
surfaced. On a non-200 status the source builds
Error(message, response.status) whose second argument JavaScript discards,
so the status never reaches the message. In the catch branch the source
evaluates (prefix + error.data) && error.data.message: when error.data is
undefined that dereference raises a TypeError, and otherwise the
conjunction's value is just error.data.message, dropping the prefix. Errors
thrown by verifyAndDecrypt are caught by the same catch and, carrying no
data field, also end in the TypeError branch. -/
def exchangeCode (pubkeyOf : String → String) (now : Int) (jti : String)
    (client : SipClient) (jwtToken : String)
    (response : Except CaughtError ScopeResponse) :
    Except JsError Json × List Event :=
  let body := Json.obj [("authToken", Json.str jwtToken)]
  let _authHeader :=
    makeAuthorizationHeader client now jti "scopeRequest/authCode" "POST" body
  match response with
  | Except.error caught =>
      match caught.data with
      | none =>
          (Except.error (JsError.typeError
            "Cannot read properties of undefined (reading message)"), [])
      | some d =>
          (Except.error (JsError.error (d.message.getD "")), [])
  | Except.ok resp =>
      if resp.status ≠ 200 then
        (Except.error (JsError.error "Error exchanging code for data: "), [])
      else
        match verifyAndDecrypt pubkeyOf now client resp.data with
        | (Except.ok v, evs) => (Except.ok v, Event.unwrapCall :: evs)
        | (Except.error _, evs) =>
            (Except.error (JsError.typeError
              "Cannot read properties of undefined (reading message)"),
             Event.unwrapCall :: evs)

/-! Helper lemmas about the stable serializer: sorting the fields of an
object is invariant under permutations of fields with pairwise distinct
keys. -/

theorem charsLt_asymm : ∀ (a b : List Char),
    charsLt a b = true → charsLt b a = false
  | [], [], h => by simp [charsLt] at h
  | [], _ :: _, _ => by simp [charsLt]
  | _ :: _, [], h => by simp [charsLt] at h
  | a :: as, b :: bs, h => by
      simp only [charsLt] at h ⊢
      by_cases h1 : a.toNat < b.toNat
      · rw [if_neg (by omega), if_pos h1]
      · by_cases h2 : b.toNat < a.toNat
        · rw [if_neg h1, if_pos h2] at h
          simp at h
        · rw [if_neg h1, if_neg h2] at h
          rw [if_neg h2, if_neg h1]
          exact charsLt_asymm as bs h

theorem charsLt_trans : ∀ (a b c : List Char), charsLt a b = true →
    charsLt b c = true → charsLt a c = true
  | [], [], _, hab, _ => by simp [charsLt] at hab
  | _ :: _, [], _, hab, _ => by simp [charsLt] at hab
  | [], _ :: _, [], _, hbc => by simp [charsLt] at hbc
  | _ :: _, _ :: _, [], _, hbc => by simp [charsLt] at hbc
  | [], _ :: _, _ :: _, _, _ => by simp [charsLt]
  | a :: as, b :: bs, c :: cs, hab, hbc => by
      simp only [charsLt] at hab hbc ⊢
      by_cases h1 : a.toNat < b.toNat <;> by_cases h2 : b.toNat < c.toNat
      · rw [if_pos (by omega)]
      · by_cases h3 : c.toNat < b.toNat
        · rw [if_neg h2, if_pos h3] at hbc
          simp at hbc
        · rw [if_pos (by omega)]
      · by_cases h4 : b.toNat < a.toNat
        · rw [if_neg h1, if_pos h4] at hab
          simp at hab
        · rw [if_pos (by omega)]
      · by_cases h4 : b.toNat < a.toNat
        · rw [if_neg h1, if_pos h4] at hab
          simp at hab
        · by_cases h3 : c.toNat < b.toNat
          · rw [if_neg h2, if_pos h3] at hbc
            simp at hbc
          · rw [if_neg h1, if_neg h4] at hab
            rw [if_neg h2, if_neg h3] at hbc
            rw [if_neg (by omega), if_neg (by omega)]
            exact charsLt_trans as bs cs hab hbc

theorem charsLt_connex : ∀ (a b : List Char),
    charsLt a b = false → charsLt b a = false → a = b
  | [], [], _, _ => rfl
  | [], _ :: _, h, _ => by simp [charsLt] at h
  | _ :: _, [], _, h => by simp [charsLt] at h
  | a :: as, b :: bs, h1, h2 => by
      simp only [charsLt] at h1 h2
      by_cases hab : a.toNat < b.toNat
      · rw [if_pos hab] at h1
        simp at h1
      · by_cases hba : b.toNat < a.toNat
        · rw [if_pos hba] at h2
          simp at h2
        · rw [if_neg hab, if_neg hba] at h1
          rw [if_neg hba, if_neg hab] at h2
          have hc : a = b := by
            have hn : a.toNat = b.toNat := by omega
            unfold Char.toNat at hn
            exact Char.ext (UInt32.ext hn)
          rw [hc, charsLt_connex as bs h1 h2]

theorem strLt_asymm {a b : String} (h : strLt a b = true) : strLt b a = false :=
  charsLt_asymm a.data b.data h

theorem strLt_trans {a b c : String} (h1 : strLt a b = true)
    (h2 : strLt b c = true) : strLt a c = true :=
  charsLt_trans a.data b.data c.data h1 h2

theorem strLt_connex {a b : String} (h1 : strLt a b = false)
    (h2 : strLt b a = false) : a = b := by
  have hd := charsLt_connex a.data b.data h1 h2
  cases a
  cases b
  simp_all

instance : IsTotal (String × Json) fieldLe :=
  ⟨fun a b => by
    simp only [fieldLe]
    by_cases h : strLt b.1 a.1 = true
    · exact Or.inr (strLt_asymm h)
    · exact Or.inl (by revert h; cases strLt b.1 a.1 <;> simp)⟩

instance : IsTrans (String × Json) fieldLe :=
  ⟨fun a b c hab hbc => by
    simp only [fieldLe] at hab hbc ⊢
    by_cases h : strLt c.1 a.1 = true
    · exfalso
      by_cases h2 : strLt a.1 b.1 = true
      · have hcb := strLt_trans h h2
        rw [hcb] at hbc
        cases hbc
      · have hf : strLt a.1 b.1 = false := by
          revert h2; cases strLt a.1 b.1 <;> simp
        have heq : a.1 = b.1 := strLt_connex hf hab
        rw [heq] at h
        rw [h] at hbc
        cases hbc
    · revert h; cases strLt c.1 a.1 <;> simp⟩

instance : IsAntisymm (String × Json) fieldLt :=
  ⟨fun a b h1 h2 => by
    simp only [fieldLt] at h1 h2
    rw [strLt_asymm h1] at h2
    cases h2⟩

theorem fieldLe_lt_of_ne {a b : String × Json} (hle : fieldLe a b)
    (hne : a.1 ≠ b.1) : fieldLt a b := by
  simp only [fieldLe] at hle
  simp only [fieldLt]
  by_cases h : strLt a.1 b.1 = true
  · exact h
  · have hf : strLt a.1 b.1 = false := by
      revert h; cases strLt a.1 b.1 <;> simp
    exact absurd (strLt_connex hf hle) hne

theorem normFields_eq_map (fs : List (String × Json)) :
    normFields fs = fs.map (fun p => (p.1, normJson p.2)) := by
  induction fs with
  | nil => rfl
  | cons p fs ih => cases p; simp [normFields, ih]

theorem map_fst_normFields (fs : List (String × Json)) :
    (normFields fs).map Prod.fst = fs.map Prod.fst := by
  rw [normFields_eq_map, List.map_map]
  rfl

theorem sorted_le_sortFields (l : List (String × Json)) :
    (sortFields l).Pairwise fieldLe :=
  List.sorted_insertionSort fieldLe l

theorem sortFields_eq_of_perm {l1 l2 : List (String × Json)}
    (hp : l1.Perm l2) (hnd : (l1.map Prod.fst).Nodup) :
    sortFields l1 = sortFields l2 := by
  have hperm : (sortFields l1).Perm (sortFields l2) :=
    ((List.perm_insertionSort fieldLe l1).trans hp).trans
      (List.perm_insertionSort fieldLe l2).symm
  have hnd1 : ((sortFields l1).map Prod.fst).Nodup :=
    (hnd.perm ((List.perm_insertionSort fieldLe l1).map Prod.fst).symm)
  have hnd2 : ((sortFields l2).map Prod.fst).Nodup :=
    hnd1.perm (hperm.map Prod.fst)
  have hne1 : (sortFields l1).Pairwise (fun a b : String × Json => a.1 ≠ b.1) :=
    (List.pairwise_map).1 hnd1
  have hne2 : (sortFields l2).Pairwise (fun a b : String × Json => a.1 ≠ b.1) :=
    (List.pairwise_map).1 hnd2
  have hs1 : (sortFields l1).Pairwise fieldLt :=
    ((sorted_le_sortFields l1).and hne1).imp
      (fun h => fieldLe_lt_of_ne h.1 h.2)
  have hs2 : (sortFields l2).Pairwise fieldLt :=
    ((sorted_le_sortFields l2).and hne2).imp
      (fun h => fieldLe_lt_of_ne h.1 h.2)
  exact List.eq_of_perm_of_sorted hperm hs1 hs2

theorem normJson_obj_perm {fs1 fs2 : List (String × Json)}
    (hp : fs1.Perm fs2) (hnd : (fs1.map Prod.fst).Nodup) :
    normJson (Json.obj fs1) = normJson (Json.obj fs2) := by
  have hp' : (normFields fs1).Perm (normFields fs2) := by
    rw [normFields_eq_map, normFields_eq_map]
    exact hp.map _
  have hnd' : ((normFields fs1).map Prod.fst).Nodup := by
    rw [map_fst_normFields]; exact hnd
  simp only [normJson]
  rw [sortFields_eq_of_perm hp' hnd']

end Civic

namespace Civic

def sampleClient : SipClient :=
  { appId := "app1", appSecret := "sharedsecret", prvKey := "prvkeyhex",
    env := "prod", defaultContentType := "application/json",
    defaultAcceptType := "application/json", base_url := SIP_BASE_URL,
    endpoint := "https://api.civic.com", pathComponent := "/sip/prod" }

def sampleToken : Token :=
  createToken 1000 "jti-1" "civic-sip" "https://api.civic.com/sip/prod"
    "civic-sip" 180 (Json.obj [("name", Json.str "Alice")]) "servicePrvKey"

def serviceKeyOf : String → String := fun _ => SIP_HEXPUB

def mismatchKeyOf : String → String := fun _ => ""

def sampleEnvelope : Envelope := { data := sampleToken, encrypted := false }

def resp403 : ScopeResponse := { status := 403, data := sampleEnvelope }

/-- Claim C1: for every envelope passed to verifyAndDecrypt, decryption of
the data claim is attempted only after verification of the signed assertion
in envelope.data (with a 60-second grace period) has succeeded; if
verification fails, the operation fails with the authentication error and no
decryption is ever performed. -/
theorem verifyAndDecrypt_verify_before_decrypt
    (pubkeyOf : String → String) (now : Int) (client : SipClient)
    (payload : Envelope) :
    (Event.decryptCall ∈ (verifyAndDecrypt pubkeyOf now client payload).2 →
      verify pubkeyOf now payload.data SIP_HEXPUB
        (some { gracePeriod := 60, alg := [] }) = true) ∧
    (verify pubkeyOf now payload.data SIP_HEXPUB
        (some { gracePeriod := 60, alg := [] }) = false →
      (verifyAndDecrypt pubkeyOf now client payload).1 =
        Except.error "JWT Token containing encrypted data could not be verified" ∧
      Event.decryptCall ∉ (verifyAndDecrypt pubkeyOf now client payload).2) := by
  unfold verifyAndDecrypt
  cases hv : verify pubkeyOf now payload.data SIP_HEXPUB
      (some { gracePeriod := 60, alg := [] }) <;>
    cases he : payload.encrypted <;> simp [hv, he]

set_option maxRecDepth 4000 in
/-- Witness for verifyAndDecrypt_verify_before_decrypt at a concrete
envelope whose token fails verification. -/
theorem verifyAndDecrypt_verify_before_decrypt_witness :
    (verifyAndDecrypt mismatchKeyOf 1000 sampleClient
        { data := sampleToken, encrypted := true }).1 =
      Except.error "JWT Token containing encrypted data could not be verified" ∧
    Event.decryptCall ∉ (verifyAndDecrypt mismatchKeyOf 1000 sampleClient
        { data := sampleToken, encrypted := true }).2 :=
  (verifyAndDecrypt_verify_before_decrypt mismatchKeyOf 1000 sampleClient
      { data := sampleToken, encrypted := true }).2 (by rfl)

/-- Claim C2: for every claims payload P and every valid P-256 key pair
(prv, pub), verifying the token produced by the signer returns true, and
decoding that token recovers a data claim exactly equal to P. -/
theorem createToken_verify_roundtrip (pubkeyOf : String → String)
    (issuer audience subject : String) (ttl : Int) (P : Json)
    (prv pub : String) (now : Int) (jti : String)
    (hkey : pubkeyOf prv = pub) (httl : 0 ≤ ttl) :
    verify pubkeyOf now
      (createToken now jti issuer audience subject ttl P prv) pub none = true ∧
    (decode (createToken now jti issuer audience subject ttl P prv)).payloadObj.data
      = P := by
  refine ⟨?_, rfl⟩
  simp only [verify, verifyJWT, mergeOptions, mergeArrays, createToken,
    ecdsaVerify, ecdsaSign, decode, Option.getD]
  simp [hkey, ALGO]
  omega

/-- Witness for createToken_verify_roundtrip at a concrete payload and key
pair under the identity key correspondence. -/
theorem createToken_verify_roundtrip_witness :
    verify id 500 (createToken 500 "j1" "iss" "aud" "sub" 180
      (Json.str "P") "k") "k" none = true ∧
    (decode (createToken 500 "j1" "iss" "aud" "sub" 180
      (Json.str "P") "k")).payloadObj.data = Json.str "P" :=
  createToken_verify_roundtrip id "iss" "aud" "sub" 180
    (Json.str "P") "k" "k" 500 "j1" rfl (by decide)

set_option maxRecDepth 8000 in
/-- Counterexample to claim C3: two key orderings of the same object are a
permutation of one another and the extension generator serializes them
identically, but the signer's claims serialization (plain JSON.stringify)
distinguishes them, so the signer and the extension generator do not share
one canonical serializer. -/
theorem serializer_not_shared_counterexample :
    List.Perm [("a", Json.num 1), ("b", Json.num 2)]
      [("b", Json.num 2), ("a", Json.num 1)] ∧
    createCivicExt (Json.obj [("a", Json.num 1), ("b", Json.num 2)]) "s" =
      createCivicExt (Json.obj [("b", Json.num 2), ("a", Json.num 1)]) "s" ∧
    (createToken 0 "j" "i" "aud" "sub" 180
      (Json.obj [("a", Json.num 1), ("b", Json.num 2)]) "k").sContent ≠
    (createToken 0 "j" "i" "aud" "sub" 180
      (Json.obj [("b", Json.num 2), ("a", Json.num 1)]) "k").sContent :=
  ⟨List.Perm.swap ("b", Json.num 2) ("a", Json.num 1) [], by decide, by decide⟩

/-- Claim C3 (amended): the request body fed to the extension generator is
serialized canonically, so key-order permutations of a body with distinct
keys produce identical serialized bytes and identical tags; the claims
object embedded by the signer, however, is serialized with plain
insertion-order JSON.stringify rather than the canonical serializer. -/
theorem extension_canonical_signer_insertion_order
    (fs1 fs2 : List (String × Json)) (secret : String)
    (now : Int) (jti issuer audience subject : String) (ttl : Int)
    (P : Json) (prv : String)
    (hp : fs1.Perm fs2) (hnd : (fs1.map Prod.fst).Nodup) :
    createCivicExt (Json.obj fs1) secret = createCivicExt (Json.obj fs2) secret ∧
    (createToken now jti issuer audience subject ttl P prv).sContent =
      jsonStringify (contentToJson
        { jti := jti, iat := now, exp := now + ttl, iss := issuer,
          aud := audience, sub := subject, data := P }) := by
  constructor
  · unfold createCivicExt stableStringify
    rw [normJson_obj_perm hp hnd]
  · rfl

/-- Witness for extension_canonical_signer_insertion_order at a concrete
two-field body permutation. -/
theorem extension_canonical_signer_insertion_order_witness :
    createCivicExt (Json.obj [("a", Json.num 1), ("b", Json.num 2)]) "sec" =
      createCivicExt (Json.obj [("b", Json.num 2), ("a", Json.num 1)]) "sec" ∧
    (createToken 7 "j" "i" "aud" "sub" 180 Json.null "k").sContent =
      jsonStringify (contentToJson
        { jti := "j", iat := 7, exp := 7 + 180, iss := "i",
          aud := "aud", sub := "sub", data := Json.null }) :=
  extension_canonical_signer_insertion_order
    [("a", Json.num 1), ("b", Json.num 2)]
    [("b", Json.num 2), ("a", Json.num 1)] "sec" 7 "j" "i" "aud" "sub" 180
    Json.null "k"
    (List.Perm.swap ("b", Json.num 2) ("a", Json.num 1) []) (by simp)

/-- Claim C9: createCivicExt is a pure deterministic function: for every
body and shared secret, two calls with the same pair return the identical
base64 HMAC-SHA256 tag, and the tag also agrees across structurally equal
bodies regardless of key ordering. -/
theorem createCivicExt_deterministic (body : Json) (secret : String)
    (fs1 fs2 : List (String × Json))
    (hp : fs1.Perm fs2) (hnd : (fs1.map Prod.fst).Nodup) :
    createCivicExt body secret = createCivicExt body secret ∧
    createCivicExt (Json.obj fs1) secret = createCivicExt (Json.obj fs2) secret :=
  ⟨rfl, by unfold createCivicExt stableStringify; rw [normJson_obj_perm hp hnd]⟩

/-- Witness for createCivicExt_deterministic at a concrete body and a
concrete key-order permutation. -/
theorem createCivicExt_deterministic_witness :
    createCivicExt (Json.str "body") "sec" = createCivicExt (Json.str "body") "sec" ∧
    createCivicExt (Json.obj [("x", Json.bool true), ("y", Json.null)]) "sec" =
      createCivicExt (Json.obj [("y", Json.null), ("x", Json.bool true)]) "sec" :=
  createCivicExt_deterministic (Json.str "body") "sec"
    [("x", Json.bool true), ("y", Json.null)]
    [("y", Json.null), ("x", Json.bool true)]
    (List.Perm.swap ("y", Json.null) ("x", Json.bool true) []) (by simp)

/-- Claim C4: for every HTTP response with status other than 200, and for
every transport error, exchangeCode fails and never invokes the Verifier or
the payload unwrapper on the response: every recorded cryptographic event
implies the response was a status-200 success. -/
theorem exchangeCode_non200_fails_without_unwrap
    (pubkeyOf : String → String) (now : Int) (jti : String)
    (client : SipClient) (jwtToken : String)
    (response : Except CaughtError ScopeResponse) :
    (∀ e, response = Except.error e →
      (∃ err, (exchangeCode pubkeyOf now jti client jwtToken response).1 =
        Except.error err) ∧
      (exchangeCode pubkeyOf now jti client jwtToken response).2 = []) ∧
    (∀ r, response = Except.ok r → r.status ≠ 200 →
      (∃ err, (exchangeCode pubkeyOf now jti client jwtToken response).1 =
        Except.error err) ∧
      (exchangeCode pubkeyOf now jti client jwtToken response).2 = []) ∧
    (∀ ev, ev ∈ (exchangeCode pubkeyOf now jti client jwtToken response).2 →
      ∃ r, response = Except.ok r ∧ r.status = 200) := by
  refine ⟨?_, ?_, ?_⟩
  · intro e he
    subst he
    cases hd : e.data <;> simp [exchangeCode, hd]
  · intro r hr hs
    subst hr
    simp [exchangeCode, hs]
  · intro ev hev
    cases response with
    | error e =>
        cases hd : e.data <;> simp [exchangeCode, hd] at hev
    | ok r =>
        by_cases hs : r.status = 200
        · exact ⟨r, rfl, hs⟩
        · simp [exchangeCode, hs] at hev

/-- Witness for exchangeCode_non200_fails_without_unwrap at a concrete 403
response. -/
theorem exchangeCode_non200_fails_without_unwrap_witness :
    (∃ err, (exchangeCode mismatchKeyOf 1000 "j" sampleClient "authtok"
      (Except.ok resp403)).1 = Except.error err) ∧
    (exchangeCode mismatchKeyOf 1000 "j" sampleClient "authtok"
      (Except.ok resp403)).2 = [] :=
  (exchangeCode_non200_fails_without_unwrap mismatchKeyOf 1000 "j"
      sampleClient "authtok" (Except.ok resp403)).2.1 resp403 rfl (by decide)

/-- Claim C5, the code evaluated at its failing inputs: on a 403 response
the surfaced error message is the bare prefix with the status discarded
(Error's second argument is ignored by JavaScript), and a transport error
carrying no data field surfaces a TypeError from the
error.data && error.data.message expression instead of an error wrapping
the cause. -/
theorem exchangeCode_error_swallows_status_and_cause :
    (exchangeCode mismatchKeyOf 1000 "j" sampleClient "authtok"
      (Except.ok resp403)).1 =
      Except.error (JsError.error "Error exchanging code for data: ") ∧
    "Error exchanging code for data: " ≠ "Error exchanging code for data: 403" ∧
    (exchangeCode mismatchKeyOf 1000 "j" sampleClient "authtok"
      (Except.error { data := none })).1 =
      Except.error (JsError.typeError
        "Cannot read properties of undefined (reading message)") :=
  ⟨by rfl, by decide, by rfl⟩

/-- Claim C6: for every path, method and body, makeAuthorizationHeader
returns exactly "Civic " followed by the assertion token, a dot, and the
extension tag, where the assertion is signed with issuer = subject = appId,
audience = the service base URL, data claim holding the method and path, and
the extension is the HMAC extension over the same body keyed by the shared
application secret. -/
theorem makeAuthorizationHeader_format (client : SipClient) (now : Int)
    (jti : String) (targetPath targetMethod : String) (requestBody : Json) :
    makeAuthorizationHeader client now jti targetPath targetMethod requestBody =
      "Civic " ++
        (createToken now jti client.appId client.base_url client.appId
          JWT_EXPIRATION
          (Json.obj [("method", Json.str targetMethod),
                     ("path", Json.str targetPath)]) client.prvKey).compact ++
        "." ++ createCivicExt requestBody client.appSecret := by
  unfold makeAuthorizationHeader
  rw [show ("Civic " : String) = "Civic" ++ " " from rfl]

/-- Claim C7: for every verified envelope, verifyAndDecrypt returns the AES
decryption (keyed by the shared application secret) of the assertion's data
claim when envelope.encrypted is true, and returns the assertion's data
claim unchanged, with no decryption event, when envelope.encrypted is
false. -/
theorem verifyAndDecrypt_decrypts_by_flag
    (pubkeyOf : String → String) (now : Int) (client : SipClient)
    (payload : Envelope)
    (hv : verify pubkeyOf now payload.data SIP_HEXPUB
      (some { gracePeriod := 60, alg := [] }) = true) :
    (payload.encrypted = true →
      verifyAndDecrypt pubkeyOf now client payload =
        (Except.ok (basicCryptoDecrypt (decode payload.data).payloadObj.data
          client.appSecret),
         [Event.verifyCall true, Event.decryptCall])) ∧
    (payload.encrypted = false →
      verifyAndDecrypt pubkeyOf now client payload =
        (Except.ok (decode payload.data).payloadObj.data,
         [Event.verifyCall true])) := by
  unfold verifyAndDecrypt
  constructor <;> intro he <;> simp [hv, he]

set_option maxRecDepth 4000 in
/-- Witness for verifyAndDecrypt_decrypts_by_flag at a concrete verified
unencrypted envelope. -/
theorem verifyAndDecrypt_decrypts_by_flag_witness :
    verifyAndDecrypt serviceKeyOf 1000 sampleClient sampleEnvelope =
      (Except.ok (decode sampleEnvelope.data).payloadObj.data,
       [Event.verifyCall true]) :=
  (verifyAndDecrypt_decrypts_by_flag serviceKeyOf 1000 sampleClient
    sampleEnvelope (by rfl)).2 rfl

/-- Counterexample to claim C8: with caller options supplying a two-element
alg array, lodash.merge merges arrays index-wise and keeps the second
caller entry, so the accepted-algorithm list is not forced to exactly
[ES256]. -/
theorem verify_alg_merge_counterexample :
    (mergeOptions (some { gracePeriod := 0, alg := ["HS256", "RS256"] })).alg ≠
      ["ES256"] ∧
    (mergeOptions (some { gracePeriod := 0, alg := ["HS256", "RS256"] })).alg =
      ["ES256", "RS256"] := by
  constructor <;> decide

/-- Claim C8 (amended): verify rejects every token whose header algorithm
is not ES256, because signature verification with the P-256 public key only
accepts ES256; the merged accepted-algorithm list always carries ES256 at
index 0 and equals exactly [ES256] whenever the caller supplies no alg
entry or a single one, but caller-supplied entries past the first survive
the index-wise lodash.merge, so the list is not always forced to exactly
[ES256]. -/
theorem verify_rejects_non_es256
    (pubkeyOf : String → String) (now : Int) (token : Token)
    (pubhex : String) (acceptable : Option AcceptField)
    (halg : token.headerAlg ≠ ALGO) :
    verify pubkeyOf now token pubhex acceptable = false ∧
    (∀ acc, (mergeOptions acc).alg.head? = some ALGO) ∧
    (mergeOptions none).alg = [ALGO] ∧
    (∀ g, (mergeOptions (some { gracePeriod := g, alg := [] })).alg = [ALGO]) ∧
    (∀ g a, (mergeOptions (some { gracePeriod := g, alg := [a] })).alg = [ALGO]) := by
  refine ⟨?_, ?_, rfl, fun g => rfl, fun g a => rfl⟩
  · have hb : (token.headerAlg == ALGO) = false := by
      simpa using halg
    unfold verify verifyJWT ecdsaVerify
    simp [hb]
  · intro acc
    cases acc with
    | none => rfl
    | some a => cases ha : a.alg <;> simp [mergeOptions, mergeArrays, ha]

def rs256Token : Token :=
  { headerAlg := "RS256", sHeader := "header",
    payloadObj := { jti := "j", iat := 0, exp := 10, iss := "i", aud := "a",
                    sub := "s", data := Json.null },
    sContent := "content", sig := ecdsaSign "k" "header.content" }

/-- Witness for verify_rejects_non_es256 at a concrete RS256 token. -/
theorem verify_rejects_non_es256_witness :
    verify id 0 rs256Token "pub" none = false :=
  (verify_rejects_non_es256 id 0 rs256Token "pub" none (by decide)).1

set_option maxRecDepth 4000 in
/-- Claim C10: for every configuration in which any of appId, appSecret or
prvKey is missing or empty (including a wholly undefined configuration),
newClient throws an error and returns no client; when all three are
present, a missing env defaults to prod and missing content and accept
types default to application/json, and with no api override a client is
indeed returned. -/
theorem newClient_validates_and_defaults (config0 : Option SipConfig) :
    ((config0 = none ∨ ∃ c, config0 = some c ∧
        (truthyOpt c.appId = false ∨ truthyOpt c.appSecret = false ∨
         truthyOpt c.prvKey = false)) →
      ∃ e, newClient config0 = Except.error e) ∧
    (∀ c, config0 = some c → truthyOpt c.appId = true →
      truthyOpt c.appSecret = true → truthyOpt c.prvKey = true →
      (∀ client, newClient config0 = Except.ok client →
        (c.env = none → client.env = "prod") ∧
        (c.defaultContentType = none →
          client.defaultContentType = "application/json") ∧
        (c.defaultAcceptType = none →
          client.defaultAcceptType = "application/json")) ∧
      (c.api = none → ∃ client, newClient config0 = Except.ok client)) := by
  constructor
  · rintro (hn | ⟨c, hc, hbad⟩)
    · subst hn
      exact ⟨"Please supply your application ID.", by rfl⟩
    · subst hc
      cases h1 : truthyOpt c.appId with
      | false =>
          exact ⟨"Please supply your application ID.", by simp [newClient, h1]⟩
      | true =>
          cases h2 : truthyOpt c.appSecret with
          | false =>
              exact ⟨"Please supply your application secret.",
                by simp [newClient, h1, h2]⟩
          | true =>
              cases h3 : truthyOpt c.prvKey with
              | false =>
                  exact ⟨"Please supply your application private key.",
                    by simp [newClient, h1, h2, h3]⟩
              | true => simp [h1, h2, h3] at hbad
  · intro c hc h1 h2 h3
    subst hc
    constructor
    · intro client hok
      simp only [newClient, Option.getD_some, h1, h2, h3, Bool.not_true,
        Bool.false_eq_true, if_false] at hok
      split at hok
      · cases hok
      · have hok2 := Except.ok.inj hok
        subst hok2
        refine ⟨?_, ?_, ?_⟩ <;> intro hnone <;> simp [hnone, truthyOpt]
    · intro hapi
      have hend : ∀ env : String,
          extractEndpoint (SIP_BASE_URL ++ env) = some "https://api.civic.com" := by
        intro env
        cases env
        rfl
      cases hres : newClient (some c) with
      | error e =>
          exfalso
          simp [newClient, h1, h2, h3, hapi, hend] at hres
      | ok client => exact ⟨client, rfl⟩

def cfgNoId : SipConfig :=
  { appId := none, appSecret := some "s", prvKey := some "k", env := none,
    defaultContentType := none, defaultAcceptType := none, api := none }

def cfgFull : SipConfig :=
  { appId := some "app1", appSecret := some "s", prvKey := some "k",
    env := none, defaultContentType := none, defaultAcceptType := none,
    api := none }

/-- Witness for newClient_validates_and_defaults at a configuration with a
missing application id and at a complete minimal configuration. -/
theorem newClient_validates_and_defaults_witness :
    (∃ e, newClient (some cfgNoId) = Except.error e) ∧
    (∃ client, newClient (some cfgFull) = Except.ok client) ∧
    (∀ client, newClient (some cfgFull) = Except.ok client →
      client.env = "prod" ∧ client.defaultContentType = "application/json" ∧
      client.defaultAcceptType = "application/json") := by
  refine ⟨(newClient_validates_and_defaults (some cfgNoId)).1
      (Or.inr ⟨cfgNoId, rfl, Or.inl (by decide)⟩),
    ((newClient_validates_and_defaults (some cfgFull)).2 cfgFull rfl
      (by decide) (by decide) (by decide)).2 rfl,
    fun client hok => ?_⟩
  obtain ⟨ha, hb, hc⟩ :=
    ((newClient_validates_and_defaults (some cfgFull)).2 cfgFull rfl
      (by decide) (by decide) (by decide)).1 client hok
  exact ⟨ha rfl, hb rfl, hc rfl⟩

end Civic
